import Mathlib

/-!
Shallow embedding of the ParameterizedTiling polygon-clipping core
(`src/GeometryEditor.ts` and `src/types.ts`) over exact rational
coordinates, together with theorems settling the specification claims.

Coordinates are modelled by `ℚ` (`ℝ` for the trigonometric regular-polygon
generator).  JavaScript numbers are IEEE doubles; the claims under study are
about the exact-arithmetic behaviour of the algorithms (the spec states its
containment/identity properties "in exact arithmetic"), so `ℚ` is the
faithful carrier for them.  Division in Lean's `ℚ` is total with `x / 0 = 0`;
wherever a claim turns on a division being well-defined we use an explicit
`Option`-valued variant that fails on a zero denominator instead of relying
on that convention.
-/

namespace GeometryEditor

/-- Embeds `THREE.Vector3`: a coordinate triple, as used for polygon
vertices in `GeometryEditor.ts`. -/
structure Point where
  x : ℚ
  y : ℚ
  z : ℚ
  deriving Repr, DecidableEq

instance : Inhabited Point := ⟨⟨0, 0, 0⟩⟩

/-- Embeds `THREE.Vector2` as used for the corners of `THREE.Box2`. -/
structure Vec2 where
  x : ℚ
  y : ℚ
  deriving Repr, DecidableEq

/-- Embeds `THREE.Box2`: an axis-aligned bounding box with `min`/`max`
corners. -/
structure Box2 where
  min : Vec2
  max : Vec2
  deriving Repr, DecidableEq

/-- Embeds the local `rect` type of `GeometryEditor.ts`:
`{minX:number, maxX:number, minY:number, maxY:number}`. -/
structure Rect where
  minX : ℚ
  maxX : ℚ
  minY : ℚ
  maxY : ℚ
  deriving Repr, DecidableEq

/-- Embeds `GeometryEditor.clipPolygonWithEdge` (lines 149-175): the
single-half-plane Sutherland-Hodgman pass.  The imperative `for` loop over
`i` with `push`es onto `output` becomes a `foldl` over `List.range
input.length` that appends to the accumulator; `current` is `input[i]` and
`next` is `input[(i + 1) % input.length]`, read with `getD` exactly as the
source indexes (every index involved is in range, so the default is never
consulted). -/
def clipPolygonWithEdge (input : List Point) (isInside : Point → Bool)
    (getIntersection : Point → Point → Point) : List Point :=
  (List.range input.length).foldl (fun output i =>
    let current := input.getD i default
    let next := input.getD ((i + 1) % input.length) default
    let inside1 := isInside current
    let inside2 := isInside next
    if inside1 then
      let output := output ++ [current]
      if !inside2 then output ++ [getIntersection current next] else output
    else
      if inside2 then output ++ [getIntersection current next] else output) []

/-- Embeds the intersection closure of the left pass of
`cutPlaneWithRect` (lines 47-50):
`t = (p1.x - clip.minX) / (p1.x - p2.x)` and the point
`(clip.minX, p1.y + t*(p2.y - p1.y), p1.z + t*(p2.z - p1.z))`. -/
def leftIntersection (clip : Rect) (p1 p2 : Point) : Point :=
  let t := (p1.x - clip.minX) / (p1.x - p2.x)
  ⟨clip.minX, p1.y + t * (p2.y - p1.y), p1.z + t * (p2.z - p1.z)⟩

/-- Embeds the intersection closure of the right pass of
`cutPlaneWithRect` (lines 53-56). -/
def rightIntersection (clip : Rect) (p1 p2 : Point) : Point :=
  let t := (clip.maxX - p1.x) / (p2.x - p1.x)
  ⟨clip.maxX, p1.y + t * (p2.y - p1.y), p1.z + t * (p2.z - p1.z)⟩

/-- Embeds the intersection closure of the bottom pass of
`cutPlaneWithRect` (lines 59-62). -/
def bottomIntersection (clip : Rect) (p1 p2 : Point) : Point :=
  let t := (clip.minY - p1.y) / (p2.y - p1.y)
  ⟨p1.x + t * (p2.x - p1.x), clip.minY, p1.z + t * (p2.z - p1.z)⟩

/-- Embeds the intersection closure of the top pass of
`cutPlaneWithRect` (lines 65-68). -/
def topIntersection (clip : Rect) (p1 p2 : Point) : Point :=
  let t := (clip.maxY - p1.y) / (p2.y - p1.y)
  ⟨p1.x + t * (p2.x - p1.x), clip.maxY, p1.z + t * (p2.z - p1.z)⟩

/-- Embeds `GeometryEditor.cutPlaneWithRect` (lines 42-70): four sequential
half-plane passes against the rectangle's left, right, bottom and top
boundaries, each consuming the previous pass's output. -/
def cutPlaneWithRect (polygon : List Point) (clip : Rect) : List Point :=
  let output := polygon
  let output := clipPolygonWithEdge output
    (fun p1 => decide (p1.x ≥ clip.minX)) (leftIntersection clip)
  let output := clipPolygonWithEdge output
    (fun p1 => decide (p1.x ≤ clip.maxX)) (rightIntersection clip)
  let output := clipPolygonWithEdge output
    (fun p1 => decide (p1.y ≥ clip.minY)) (bottomIntersection clip)
  let output := clipPolygonWithEdge output
    (fun p1 => decide (p1.y ≤ clip.maxY)) (topIntersection clip)
  output

/-- Embeds `GeometryEditor.calculateBoundingBox` (lines 177-189).  The
source seeds the running minima/maxima with `±Infinity` and folds `min`/
`max` over all vertices; `ℚ` has no infinities, so the embedding seeds the
folds with the head's coordinates, which yields the same result on every
non-empty list (on the first loop iteration of the source,
`min(Infinity, x) = x` and `max(-Infinity, x) = x`).  All uses inside the
claims are on non-empty lists; the `[]` case is arbitrary (the source would
return an infinite/empty box there). -/
def calculateBoundingBox : List Point → Box2
  | [] => ⟨⟨0, 0⟩, ⟨0, 0⟩⟩
  | p :: ps =>
    ⟨⟨ps.foldl (fun m q => min m q.x) p.x, ps.foldl (fun m q => min m q.y) p.y⟩,
     ⟨ps.foldl (fun m q => max m q.x) p.x, ps.foldl (fun m q => max m q.y) p.y⟩⟩

/-- Embeds `GeometryEditor.CutGeometry` (lines 16-39): the grid tiler.
Empty input returns `[]`; otherwise the subject's bounding box is divided
into `ceil(width / gridSizeX) × ceil(height / gridSizeY)` cells, each cell
rectangle is clipped against the subject and kept iff the result has at
least 3 vertices.  The `for(i=0; i<gridCountX; i++)` loops run zero times
when the (real-valued) count is not positive, which `Int.toNat` captures. -/
def CutGeometry (vertices : List Point) (gridSizeX gridSizeY : ℚ) :
    List (List Point) :=
  if vertices.length = 0 then []
  else
    let bBox := calculateBoundingBox vertices
    let width := bBox.max.x - bBox.min.x
    let height := bBox.max.y - bBox.min.y
    let gridCountX := ⌈width / gridSizeX⌉
    let gridCountY := ⌈height / gridSizeY⌉
    (List.range gridCountX.toNat).foldl (fun results (i : ℕ) =>
      (List.range gridCountY.toNat).foldl (fun results (j : ℕ) =>
        let gridX := bBox.min.x + (i : ℚ) * gridSizeX
        let gridY := bBox.min.y + (j : ℚ) * gridSizeY
        let rect : Rect :=
          ⟨gridX, gridX + gridSizeX, gridY, gridY + gridSizeY⟩
        let result := cutPlaneWithRect vertices rect
        if result.length ≥ 3 then results ++ [result] else results)
        results) []

/-- Embeds the `ClipInfo` class of `src/types.ts` (fields only; the
constructor is `mkClipInfo`). -/
structure ClipInfo where
  points : List Point
  stepX : ℚ
  stepY : ℚ
  box : Box2
  bOffset : Bool
  deriving Repr, DecidableEq

/-- Embeds the `ClipInfo` constructor (`src/types.ts`, lines 3-22): it
scans the raw points for the per-axis minima/maxima with the same
`±Infinity`-seeded fold as `calculateBoundingBox`, stores that box, and,
when `bOffset` is set, replaces every point `(x, y, z)` by
`(x - minx, y - miny, 0)`. -/
def mkClipInfo (points : List Point) (stepX stepY : ℚ) (bOffset : Bool) :
    ClipInfo :=
  let b := calculateBoundingBox points
  let pts :=
    if bOffset then
      points.map (fun p => Point.mk (p.x - b.min.x) (p.y - b.min.y) 0)
    else points
  ⟨pts, stepX, stepY, b, bOffset⟩

/-- Embeds `GeometryEditor.CutPolygonWithPolygon` (lines 79-138).  The
per-edge clipping loop in the source (lines 122-133) has its body entirely
commented out, so each grid cell appends the untouched subject polygon
(`output = [...polygon]`); the translated replica vertices are computed but
unused, mirrored here by the unused `let`. -/
def CutPolygonWithPolygon (polygon : List Point) (clip : ClipInfo) :
    List (List Point) :=
  let points := clip.points
  let bBox := calculateBoundingBox polygon
  let step_x := clip.stepX + (clip.box.max.x - clip.box.min.x)
  let step_y := clip.stepY + (clip.box.max.y - clip.box.min.y)
  let gridCountX := ⌈(bBox.max.x - bBox.min.x) / step_x⌉
  let gridCountY := ⌈(bBox.max.y - bBox.min.y) / step_y⌉
  (List.range gridCountX.toNat).foldl (fun results (i : ℕ) =>
    (List.range gridCountY.toNat).foldl (fun results (j : ℕ) =>
      let output := polygon
      let _clipVertices := points.map (fun p =>
        Point.mk (p.x + (i : ℚ) * step_x) (p.y + (j : ℚ) * step_y) p.z)
      results ++ [output]) results) []

/-- Specification form of the single edge pass, written the way the spec
describes it: visit each cyclic edge `(input[i], input[(i + 1) mod n])` in
index order and emit, per edge, the current point if both endpoints are
inside; the current point followed by the intersection if only the current
is inside; the intersection alone if only the next is inside; and nothing
if both are outside. -/
def edgeClipSpec (input : List Point) (isInside : Point → Bool)
    (getIntersection : Point → Point → Point) : List Point :=
  (List.range input.length).flatMap (fun i =>
    let current := input.getD i default
    let next := input.getD ((i + 1) % input.length) default
    if isInside current then
      if isInside next then [current]
      else [current, getIntersection current next]
    else
      if isInside next then [getIntersection current next]
      else [])

/-- Division-checked variant of `clipPolygonWithEdge`: the intersection
function may fail (returning `none` exactly where the source's floating
division would produce `Infinity`/`NaN`), and any failure aborts the whole
pass.  Used to show the unchecked pass never exercises such a division. -/
def clipPolygonWithEdgeChecked (input : List Point) (isInside : Point → Bool)
    (getIntersection : Point → Point → Option Point) : Option (List Point) :=
  (List.range input.length).foldl (fun acc i =>
    acc.bind (fun output =>
      let current := input.getD i default
      let next := input.getD ((i + 1) % input.length) default
      if isInside current then
        if !isInside next then
          (getIntersection current next).map (fun q => output ++ [current] ++ [q])
        else some (output ++ [current])
      else
        if isInside next then
          (getIntersection current next).map (fun q => output ++ [q])
        else some output)) (some [])

/-- Left-pass intersection that fails on the zero denominator
`p1.x - p2.x = 0` instead of dividing by zero. -/
def leftIntersectionChecked (clip : Rect) (p1 p2 : Point) : Option Point :=
  if p1.x - p2.x = 0 then none else some (leftIntersection clip p1 p2)

/-- Right-pass intersection that fails on the zero denominator
`p2.x - p1.x = 0`. -/
def rightIntersectionChecked (clip : Rect) (p1 p2 : Point) : Option Point :=
  if p2.x - p1.x = 0 then none else some (rightIntersection clip p1 p2)

/-- Bottom-pass intersection that fails on the zero denominator
`p2.y - p1.y = 0`. -/
def bottomIntersectionChecked (clip : Rect) (p1 p2 : Point) : Option Point :=
  if p2.y - p1.y = 0 then none else some (bottomIntersection clip p1 p2)

/-- Top-pass intersection that fails on the zero denominator
`p2.y - p1.y = 0`. -/
def topIntersectionChecked (clip : Rect) (p1 p2 : Point) : Option Point :=
  if p2.y - p1.y = 0 then none else some (topIntersection clip p1 p2)

/-- Division-checked variant of `cutPlaneWithRect`: any zero-denominator
intersection in any of the four passes makes the whole computation `none`. -/
def cutPlaneWithRectChecked (polygon : List Point) (clip : Rect) :
    Option (List Point) :=
  (clipPolygonWithEdgeChecked polygon
      (fun p1 => decide (p1.x ≥ clip.minX)) (leftIntersectionChecked clip)).bind
    (fun output =>
      (clipPolygonWithEdgeChecked output
          (fun p1 => decide (p1.x ≤ clip.maxX)) (rightIntersectionChecked clip)).bind
        (fun output =>
          (clipPolygonWithEdgeChecked output
              (fun p1 => decide (p1.y ≥ clip.minY)) (bottomIntersectionChecked clip)).bind
            (fun output =>
              clipPolygonWithEdgeChecked output
                (fun p1 => decide (p1.y ≤ clip.maxY)) (topIntersectionChecked clip))))

/-- Grid count along one axis as computed by `CutGeometry` and
`CutPolygonWithPolygon`: `ceil(extent / step)`. -/
def gridCount (extent step : ℚ) : ℤ := ⌈extent / step⌉

/-- The cell rectangle `CutGeometry` builds for indices `(i, j)`:
anchored at `(bboxMin.x + i*gridSizeX, bboxMin.y + j*gridSizeY)` with size
`gridSizeX × gridSizeY`. -/
def cellRect (b : Box2) (gridSizeX gridSizeY : ℚ) (i j : ℕ) : Rect :=
  ⟨b.min.x + (i : ℚ) * gridSizeX, b.min.x + (i : ℚ) * gridSizeX + gridSizeX,
   b.min.y + (j : ℚ) * gridSizeY, b.min.y + (j : ℚ) * gridSizeY + gridSizeY⟩

/-- Specification form of `CutGeometry`, following the spec's words: clip
the subject against exactly the cell rectangles for `i` in
`[0, gridCountX)`, `j` in `[0, gridCountY)`, row-major with `i` outer and
`j` inner, keeping a cell's fragment iff it has at least 3 vertices. -/
def cutGeometrySpec (vertices : List Point) (gridSizeX gridSizeY : ℚ) :
    List (List Point) :=
  let bBox := calculateBoundingBox vertices
  (List.range (gridCount (bBox.max.x - bBox.min.x) gridSizeX).toNat).flatMap
    (fun i =>
      (List.range (gridCount (bBox.max.y - bBox.min.y) gridSizeY).toNat).flatMap
        (fun j =>
          let result := cutPlaneWithRect vertices (cellRect bBox gridSizeX gridSizeY i j)
          if result.length ≥ 3 then [result] else []))

/-- A point lies (weakly) within an axis-aligned rectangle, in x and y. -/
def inRect (p : Point) (r : Rect) : Prop :=
  r.minX ≤ p.x ∧ p.x ≤ r.maxX ∧ r.minY ≤ p.y ∧ p.y ≤ r.maxY

instance (p : Point) (r : Rect) : Decidable (inRect p r) := by
  unfold inRect
  infer_instance

/-- Real-valued 2D point (`THREE.Vector2`) for the regular-polygon
generator, which uses trigonometric functions. -/
structure RVec2 where
  x : ℝ
  y : ℝ

/-- Real-valued 3D point (`THREE.Vector3`) for the regular-polygon
generator. -/
structure RPoint where
  x : ℝ
  y : ℝ
  z : ℝ

/-- The angle `createHexagon` computes for vertex `i`:
`(i / sides) * Math.PI * 2`. -/
noncomputable def hexAngle (sides i : ℕ) : ℝ :=
  ((i : ℝ) / (sides : ℝ)) * Real.pi * 2

/-- Embeds `GeometryEditor.createHexagon` (lines 198-209): the regular
N-gon generator.  For `i` in `[0, sides)` it emits
`(center.x + radius*cos(angle), center.y + radius*sin(angle), 0)` with
`angle = (i / sides) * π * 2`. -/
noncomputable def createHexagon (center : RVec2) (radius : ℝ) (sides : ℕ) :
    List RPoint :=
  (List.range sides).map (fun i =>
    ⟨center.x + radius * Real.cos (hexAngle sides i),
     center.y + radius * Real.sin (hexAngle sides i), 0⟩)

/-- Euclidean distance in the plane between a generated vertex and the
generator's center, as used by the spec's regular-polygon metric. -/
noncomputable def planeDist (p : RPoint) (c : RVec2) : ℝ :=
  Real.sqrt ((p.x - c.x) ^ 2 + (p.y - c.y) ^ 2)

/-! ## Generic fold lemmas -/

/-- A left fold whose step only appends to its accumulator is a `flatMap`. -/
theorem foldl_emit {α β : Type} (F : List α → β → List α) (g : β → List α)
    (hF : ∀ acc b, F acc b = acc ++ g b) (l : List β) (init : List α) :
    l.foldl F init = init ++ l.flatMap g := by
  induction l generalizing init with
  | nil => simp
  | cons b t ih =>
    rw [List.foldl_cons, hF, ih, List.flatMap_cons, List.append_assoc]

/-- A left fold in `Option` whose step never fails on a `some` accumulator
computes `some` of the unchecked fold. -/
theorem foldl_bind_some {α β : Type} (FP : α → β → α) (FC : Option α → β → Option α)
    (hFC : ∀ a b, FC (some a) b = some (FP a b)) (l : List β) (a : α) :
    l.foldl FC (some a) = some (l.foldl FP a) := by
  induction l generalizing a with
  | nil => rfl
  | cons b t ih => rw [List.foldl_cons, List.foldl_cons, hFC]; exact ih _

/-- A `flatMap` all of whose pieces are the singleton `[f i]` is a `map`. -/
theorem flatMap_eq_map_of {β : Type} (l : List β) (g : β → List Point)
    (f : β → Point) (h : ∀ i ∈ l, g i = [f i]) : l.flatMap g = l.map f := by
  induction l with
  | nil => rfl
  | cons a t ih =>
    rw [List.flatMap_cons, List.map_cons, h a (List.mem_cons_self a t),
      ih (fun i hi => h i (List.mem_cons_of_mem a hi))]
    rfl

/-- Reading every position of a list in order reconstructs the list. -/
theorem map_getD_range (l : List Point) :
    (List.range l.length).map (fun i => l.getD i default) = l := by
  apply List.ext_getElem (by simp)
  intro n h1 h2
  simp only [List.getElem_map, List.getElem_range]
  exact List.getD_eq_getElem l default h2

/-- A `flatMap` all of whose pieces are `replicate m a` is one big
`replicate`. -/
theorem flatMap_const_replicate {α β : Type} (l : List β) (m : ℕ) (a : α) :
    l.flatMap (fun _ => List.replicate m a) = List.replicate (l.length * m) a := by
  induction l with
  | nil => simp
  | cons b t ih =>
    rw [List.flatMap_cons, ih, List.length_cons, Nat.succ_mul, Nat.add_comm,
      List.replicate_add]

/-- An in-bounds `getD` read is a member of the list. -/
theorem getD_mem_of_lt (l : List Point) (i : ℕ) (h : i < l.length) :
    l.getD i default ∈ l := by
  rw [List.getD_eq_getElem _ _ h]
  exact List.getElem_mem h

/-! ## The single edge pass -/

/-- One iteration of the push-loop appends exactly the per-edge emission of
the specification case analysis. -/
theorem clip_step_eq (output : List Point) (ins : Point → Bool)
    (itx : Point → Point → Point) (c n : Point) :
    (if ins c then
       let output := output ++ [c]
       if !ins n then output ++ [itx c n] else output
     else
       if ins n then output ++ [itx c n] else output) =
      output ++
        (if ins c then
           if ins n then [c] else [c, itx c n]
         else
           if ins n then [itx c n] else []) := by
  cases h1 : ins c <;> cases h2 : ins n <;> simp [h1, h2]

/-- The imperative push-loop of `clipPolygonWithEdge` produces exactly the
per-edge emissions of `edgeClipSpec`. -/
theorem clipPolygonWithEdge_eq_spec (input : List Point) (ins : Point → Bool)
    (itx : Point → Point → Point) :
    clipPolygonWithEdge input ins itx = edgeClipSpec input ins itx := by
  have h : ∀ (output : List Point) (i : ℕ),
      (let current := input.getD i default
       let next := input.getD ((i + 1) % input.length) default
       let inside1 := ins current
       let inside2 := ins next
       if inside1 then
         let output := output ++ [current]
         if !inside2 then output ++ [itx current next] else output
       else
         if inside2 then output ++ [itx current next] else output) =
        output ++
          (let current := input.getD i default
           let next := input.getD ((i + 1) % input.length) default
           if ins current then
             if ins next then [current]
             else [current, itx current next]
           else
             if ins next then [itx current next]
             else []) := by
    intro output i
    exact clip_step_eq output ins itx _ _
  rw [clipPolygonWithEdge, edgeClipSpec, foldl_emit _ _ h _ [], List.nil_append]

/-- Every point emitted by an edge pass is either an input point classified
inside, or the intersection of two input points classified on opposite
sides. -/
theorem mem_clipPolygonWithEdge {q : Point} {input : List Point}
    {ins : Point → Bool} {itx : Point → Point → Point}
    (hq : q ∈ clipPolygonWithEdge input ins itx) :
    (q ∈ input ∧ ins q = true) ∨
      ∃ p1 p2, p1 ∈ input ∧ p2 ∈ input ∧ ins p1 ≠ ins p2 ∧ q = itx p1 p2 := by
  rw [clipPolygonWithEdge_eq_spec, edgeClipSpec, List.mem_flatMap] at hq
  obtain ⟨i, hi, hq⟩ := hq
  rw [List.mem_range] at hi
  have hnext : (i + 1) % input.length < input.length := Nat.mod_lt _ (by omega)
  have hm1 : input.getD i default ∈ input := getD_mem_of_lt _ _ hi
  have hm2 : input.getD ((i + 1) % input.length) default ∈ input :=
    getD_mem_of_lt _ _ hnext
  simp only [] at hq
  set c := input.getD i default with hc
  set nx := input.getD ((i + 1) % input.length) default with hnx
  by_cases h1 : ins c = true <;> by_cases h2 : ins nx = true
  · simp [h1, h2] at hq
    subst hq
    exact Or.inl ⟨hm1, h1⟩
  · rw [Bool.not_eq_true] at h2
    simp [h1, h2] at hq
    rcases hq with rfl | rfl
    · exact Or.inl ⟨hm1, h1⟩
    · exact Or.inr ⟨c, nx, hm1, hm2, by simp [h1, h2], rfl⟩
  · rw [Bool.not_eq_true] at h1
    simp [h1, h2] at hq
    subst hq
    exact Or.inr ⟨c, nx, hm1, hm2, by simp [h1, h2], rfl⟩
  · rw [Bool.not_eq_true] at h1 h2
    simp [h1, h2] at hq

/-- An edge pass whose inside-test accepts every input point is the
identity. -/
theorem clipPolygonWithEdge_all_inside (input : List Point) (ins : Point → Bool)
    (itx : Point → Point → Point) (h : ∀ p ∈ input, ins p = true) :
    clipPolygonWithEdge input ins itx = input := by
  rw [clipPolygonWithEdge_eq_spec, edgeClipSpec]
  rw [flatMap_eq_map_of _ _ (fun i => input.getD i default) ?_]
  · exact map_getD_range input
  · intro i hi
    rw [List.mem_range] at hi
    have hnext : (i + 1) % input.length < input.length := Nat.mod_lt _ (by omega)
    have h1 := h _ (getD_mem_of_lt input i hi)
    have h2 := h _ (getD_mem_of_lt input _ hnext)
    simp only []
    rw [h1, h2]
    simp

/-- Transport of per-point invariants across an edge pass: if all inputs
satisfy `P`, inside inputs satisfying `P` satisfy `Q`, and intersections of
`P`-points classified on opposite sides satisfy `Q`, then all outputs
satisfy `Q`. -/
theorem clipPolygonWithEdge_forall {P Q : Point → Prop} (input : List Point)
    (ins : Point → Bool) (itx : Point → Point → Point)
    (hin : ∀ p ∈ input, P p)
    (hkeep : ∀ p, P p → ins p = true → Q p)
    (hitx : ∀ p1 p2, P p1 → P p2 → ins p1 ≠ ins p2 → Q (itx p1 p2)) :
    ∀ q ∈ clipPolygonWithEdge input ins itx, Q q := by
  intro q hq
  rcases mem_clipPolygonWithEdge hq with ⟨hm, hins⟩ | ⟨p1, p2, hm1, hm2, hne, rfl⟩
  · exact hkeep q (hin q hm) hins
  · exact hitx p1 p2 (hin p1 hm1) (hin p2 hm2) hne

/-! ## Numeric facts about the intersection parameter -/

/-- Linear interpolation with parameter in `[0, 1]` between two values of an
interval stays in the interval. -/
theorem interp_mem {lo hi a b t : ℚ} (ha1 : lo ≤ a) (ha2 : a ≤ hi)
    (hb1 : lo ≤ b) (hb2 : b ≤ hi) (ht0 : 0 ≤ t) (ht1 : t ≤ 1) :
    lo ≤ a + t * (b - a) ∧ a + t * (b - a) ≤ hi := by
  constructor <;> nlinarith

/-- If the boundary value `c` lies between `y1` and `y2` and the two
differ, the intersection parameter `(c - y1) / (y2 - y1)` lies in `[0, 1]`. -/
theorem t_unit {c y1 y2 : ℚ} (hne : y1 ≠ y2) (h1 : min y1 y2 ≤ c)
    (h2 : c ≤ max y1 y2) :
    0 ≤ (c - y1) / (y2 - y1) ∧ (c - y1) / (y2 - y1) ≤ 1 := by
  rcases lt_or_gt_of_ne hne with hlt | hgt
  · have hd : 0 < y2 - y1 := by linarith
    rw [min_eq_left (le_of_lt hlt)] at h1
    rw [max_eq_right (le_of_lt hlt)] at h2
    constructor
    · exact div_nonneg (by linarith) (le_of_lt hd)
    · rw [div_le_one hd]
      linarith
  · have hd : y2 - y1 < 0 := by linarith
    rw [min_eq_right (le_of_lt hgt)] at h1
    rw [max_eq_left (le_of_lt hgt)] at h2
    constructor
    · rw [le_div_iff_of_neg hd, zero_mul]
      linarith
    · rw [div_le_iff_of_neg hd, one_mul]
      linarith

/-- A half-plane predicate of the form `y ≥ c` classifying two values
differently forces the boundary `c` strictly between them. -/
theorem straddle_ge {c y1 y2 : ℚ} (h : decide (y1 ≥ c) ≠ decide (y2 ≥ c)) :
    y1 ≠ y2 ∧ min y1 y2 ≤ c ∧ c ≤ max y1 y2 := by
  by_cases h1 : y1 ≥ c <;> by_cases h2 : y2 ≥ c
  · simp [h1, h2] at h
  · rw [not_le] at h2
    refine ⟨by intro he; rw [he] at h1; linarith, ?_, ?_⟩
    · exact le_trans (min_le_right _ _) (le_of_lt h2)
    · exact le_trans h1 (le_max_left _ _)
  · rw [not_le] at h1
    refine ⟨by intro he; rw [he] at h1; linarith, ?_, ?_⟩
    · exact le_trans (min_le_left _ _) (le_of_lt h1)
    · exact le_trans h2 (le_max_right _ _)
  · simp [h1, h2] at h

/-- A half-plane predicate of the form `y ≤ c` classifying two values
differently forces the boundary `c` strictly between them. -/
theorem straddle_le {c y1 y2 : ℚ} (h : decide (y1 ≤ c) ≠ decide (y2 ≤ c)) :
    y1 ≠ y2 ∧ min y1 y2 ≤ c ∧ c ≤ max y1 y2 := by
  by_cases h1 : y1 ≤ c <;> by_cases h2 : y2 ≤ c
  · simp [h1, h2] at h
  · rw [not_le] at h2
    refine ⟨by intro he; rw [he] at h1; linarith, ?_, ?_⟩
    · exact le_trans (min_le_left _ _) h1
    · exact le_trans (le_of_lt h2) (le_max_right _ _)
  · rw [not_le] at h1
    refine ⟨by intro he; rw [he] at h1; linarith, ?_, ?_⟩
    · exact le_trans (min_le_right _ _) h2
    · exact le_trans (le_of_lt h1) (le_max_left _ _)
  · simp [h1, h2] at h

/-! ## Containment through the four rectangle passes -/

/-- All points produced by `cutPlaneWithRect` lie weakly inside the clip
rectangle (for a well-formed rectangle). -/
theorem cutPlaneWithRect_containment (polygon : List Point) (clip : Rect)
    (hx : clip.minX ≤ clip.maxX) (hy : clip.minY ≤ clip.maxY) :
    ∀ q ∈ cutPlaneWithRect polygon clip, inRect q clip := by
  intro q hq
  rw [cutPlaneWithRect] at hq
  refine clipPolygonWithEdge_forall
    (P := fun r => clip.minX ≤ r.x ∧ r.x ≤ clip.maxX ∧ clip.minY ≤ r.y)
    (Q := fun r => inRect r clip)
    _ _ _ ?_ ?_ ?_ q hq
  · -- inputs to the top pass: outputs of the bottom pass
    refine clipPolygonWithEdge_forall
      (P := fun r => clip.minX ≤ r.x ∧ r.x ≤ clip.maxX) _ _ _ ?_ ?_ ?_
    · -- inputs to the bottom pass: outputs of the right pass
      refine clipPolygonWithEdge_forall (P := fun r => clip.minX ≤ r.x)
        _ _ _ ?_ ?_ ?_
      · -- inputs to the right pass: outputs of the left pass
        refine clipPolygonWithEdge_forall (P := fun _ => True) _ _ _ ?_ ?_ ?_
        · exact fun p _ => trivial
        · intro p _ hp
          exact of_decide_eq_true hp
        · intro p1 p2 _ _ _
          rw [leftIntersection]
      · intro p hp hle
        exact ⟨hp, of_decide_eq_true hle⟩
      · intro p1 p2 hp1 _ _
        rw [rightIntersection]
        exact ⟨hx, le_refl _⟩
    · intro p hp hge
      exact ⟨hp.1, hp.2, of_decide_eq_true hge⟩
    · intro p1 p2 hp1 hp2 hne
      rw [bottomIntersection]
      obtain ⟨hne', hmin, hmax⟩ := straddle_ge hne
      obtain ⟨ht0, ht1⟩ := t_unit hne' hmin hmax
      obtain ⟨hl, hr⟩ := interp_mem hp1.1 hp1.2 hp2.1 hp2.2 ht0 ht1
      exact ⟨hl, hr, le_refl _⟩
  · intro p hp hle
    exact ⟨hp.1, hp.2.1, hp.2.2, of_decide_eq_true hle⟩
  · intro p1 p2 hp1 hp2 hne
    rw [topIntersection]
    obtain ⟨hne', hmin, hmax⟩ := straddle_le hne
    obtain ⟨ht0, ht1⟩ := t_unit hne' hmin hmax
    obtain ⟨hl, hr⟩ := interp_mem hp1.1 hp1.2.1 hp2.1 hp2.2.1 ht0 ht1
    exact ⟨hl, hr, hy, le_refl _⟩

/-! ## The checked passes never fail -/

/-- If the checked intersection succeeds (with the unchecked value) on every
pair the pass classifies on opposite sides, the checked pass equals `some`
of the unchecked pass. -/
theorem clipPolygonWithEdgeChecked_eq (input : List Point) (ins : Point → Bool)
    (chk : Point → Point → Option Point) (itx : Point → Point → Point)
    (hsafe : ∀ p1 p2, ins p1 ≠ ins p2 → chk p1 p2 = some (itx p1 p2)) :
    clipPolygonWithEdgeChecked input ins chk =
      some (clipPolygonWithEdge input ins itx) := by
  rw [clipPolygonWithEdgeChecked, clipPolygonWithEdge]
  refine foldl_bind_some _ _ ?_ _ _
  intro out i
  rw [Option.some_bind]
  simp only []
  set c := input.getD i default with hc
  set nx := input.getD ((i + 1) % input.length) default with hnx
  by_cases h1 : ins c = true <;> by_cases h2 : ins nx = true
  · simp [h1, h2]
  · rw [Bool.not_eq_true] at h2
    rw [hsafe c nx (by simp [h1, h2])]
    simp [h1, h2]
  · rw [Bool.not_eq_true] at h1
    rw [hsafe c nx (by simp [h1, h2])]
    simp [h1, h2]
  · rw [Bool.not_eq_true] at h1 h2
    simp [h1, h2]

/-- The left pass never divides by zero: points classified on opposite
sides of `x = minX` have different `x` coordinates. -/
theorem leftChecked_safe (clip : Rect) : ∀ p1 p2 : Point,
    decide (p1.x ≥ clip.minX) ≠ decide (p2.x ≥ clip.minX) →
    leftIntersectionChecked clip p1 p2 = some (leftIntersection clip p1 p2) := by
  intro p1 p2 h
  rw [leftIntersectionChecked, if_neg]
  intro h0
  apply h
  have hx : p1.x = p2.x := by linarith [sub_eq_zero.mp h0]
  rw [hx]

/-- The right pass never divides by zero. -/
theorem rightChecked_safe (clip : Rect) : ∀ p1 p2 : Point,
    decide (p1.x ≤ clip.maxX) ≠ decide (p2.x ≤ clip.maxX) →
    rightIntersectionChecked clip p1 p2 = some (rightIntersection clip p1 p2) := by
  intro p1 p2 h
  rw [rightIntersectionChecked, if_neg]
  intro h0
  apply h
  have hx : p1.x = p2.x := by linarith [sub_eq_zero.mp h0]
  rw [hx]

/-- The bottom pass never divides by zero. -/
theorem bottomChecked_safe (clip : Rect) : ∀ p1 p2 : Point,
    decide (p1.y ≥ clip.minY) ≠ decide (p2.y ≥ clip.minY) →
    bottomIntersectionChecked clip p1 p2 = some (bottomIntersection clip p1 p2) := by
  intro p1 p2 h
  rw [bottomIntersectionChecked, if_neg]
  intro h0
  apply h
  have hy : p1.y = p2.y := by linarith [sub_eq_zero.mp h0]
  rw [hy]

/-- The top pass never divides by zero. -/
theorem topChecked_safe (clip : Rect) : ∀ p1 p2 : Point,
    decide (p1.y ≤ clip.maxY) ≠ decide (p2.y ≤ clip.maxY) →
    topIntersectionChecked clip p1 p2 = some (topIntersection clip p1 p2) := by
  intro p1 p2 h
  rw [topIntersectionChecked, if_neg]
  intro h0
  apply h
  have hy : p1.y = p2.y := by linarith [sub_eq_zero.mp h0]
  rw [hy]

/-! ## Bounding box bounds -/

/-- A min-fold is bounded by its seed. -/
theorem foldl_min_le_init (f : Point → ℚ) (ps : List Point) (a : ℚ) :
    ps.foldl (fun m q => min m (f q)) a ≤ a := by
  induction ps generalizing a with
  | nil => exact le_refl a
  | cons p t ih => exact le_trans (ih _) (min_le_left _ _)

/-- A min-fold is bounded by every folded element. -/
theorem foldl_min_le_mem (f : Point → ℚ) (ps : List Point) (a : ℚ) {p : Point}
    (hp : p ∈ ps) : ps.foldl (fun m q => min m (f q)) a ≤ f p := by
  induction ps generalizing a with
  | nil => cases hp
  | cons q t ih =>
    rcases List.mem_cons.mp hp with rfl | hmem
    · exact le_trans (foldl_min_le_init f t _) (min_le_right _ _)
    · exact ih _ hmem

/-- A max-fold dominates its seed. -/
theorem foldl_max_ge_init (f : Point → ℚ) (ps : List Point) (a : ℚ) :
    a ≤ ps.foldl (fun m q => max m (f q)) a := by
  induction ps generalizing a with
  | nil => exact le_refl a
  | cons p t ih => exact le_trans (le_max_left _ _) (ih _)

/-- A max-fold dominates every folded element. -/
theorem foldl_max_ge_mem (f : Point → ℚ) (ps : List Point) (a : ℚ) {p : Point}
    (hp : p ∈ ps) : f p ≤ ps.foldl (fun m q => max m (f q)) a := by
  induction ps generalizing a with
  | nil => cases hp
  | cons q t ih =>
    rcases List.mem_cons.mp hp with rfl | hmem
    · exact le_trans (le_max_right _ _) (foldl_max_ge_init f t _)
    · exact ih _ hmem

/-- Every vertex lies inside the computed bounding box. -/
theorem bbox_bounds (vertices : List Point) {p : Point} (hp : p ∈ vertices) :
    (calculateBoundingBox vertices).min.x ≤ p.x ∧
      p.x ≤ (calculateBoundingBox vertices).max.x ∧
      (calculateBoundingBox vertices).min.y ≤ p.y ∧
      p.y ≤ (calculateBoundingBox vertices).max.y := by
  rcases vertices with _ | ⟨q, ps⟩
  · cases hp
  · rw [calculateBoundingBox]
    rcases List.mem_cons.mp hp with rfl | hmem
    · exact ⟨foldl_min_le_init (fun r => r.x) ps p.x,
        foldl_max_ge_init (fun r => r.x) ps p.x,
        foldl_min_le_init (fun r => r.y) ps p.y,
        foldl_max_ge_init (fun r => r.y) ps p.y⟩
    · exact ⟨foldl_min_le_mem (fun r => r.x) ps q.x hmem,
        foldl_max_ge_mem (fun r => r.x) ps q.x hmem,
        foldl_min_le_mem (fun r => r.y) ps q.y hmem,
        foldl_max_ge_mem (fun r => r.y) ps q.y hmem⟩

/-! ## Grid decomposition of CutGeometry -/

/-- A nested accumulator double loop that only appends is the row-major
double `flatMap`. -/
theorem foldl_grid {alpha : Type} (nx ny : ℕ) (g : ℕ → ℕ → List alpha) :
    (List.range nx).foldl (fun acc i =>
        (List.range ny).foldl (fun acc2 j => acc2 ++ g i j) acc) [] =
      (List.range nx).flatMap (fun i =>
        (List.range ny).flatMap (fun j => g i j)) := by
  rw [foldl_emit (fun acc i => (List.range ny).foldl
      (fun acc2 j => acc2 ++ g i j) acc)
    (fun i => (List.range ny).flatMap (fun j => g i j))
    (fun acc i => foldl_emit _ _ (fun acc2 j => rfl) _ _) _ [],
    List.nil_append]

/-- `CutGeometry`'s nested accumulator loops are the row-major `flatMap`
enumeration of `cutGeometrySpec` (unconditionally: the empty-input guard
agrees with the zero-extent grid). -/
theorem CutGeometry_eq_spec (vertices : List Point) (gx gy : ℚ) :
    CutGeometry vertices gx gy = cutGeometrySpec vertices gx gy := by
  by_cases hv : vertices.length = 0
  · rw [CutGeometry, if_pos hv, cutGeometrySpec]
    rcases vertices with _ | ⟨p, ps⟩
    · rw [calculateBoundingBox]
      simp [gridCount]
    · exact absurd hv (by simp)
  · rw [CutGeometry, if_neg hv]
    simp only []
    have hbody : ∀ (acc : List (List Point)) (r : List Point),
        (if r.length ≥ 3 then acc ++ [r] else acc) =
          acc ++ (if r.length ≥ 3 then [r] else []) := by
      intro acc r
      split
      · rfl
      · rw [List.append_nil]
    simp only [hbody]
    rw [foldl_grid]
    rfl

/-- Membership in the grid enumeration: a fragment comes from some cell
`(i, j)` in range whose clip result has at least 3 vertices. -/
theorem mem_cutGeometrySpec {frag : List Point} {vertices : List Point}
    {gx gy : ℚ} :
    frag ∈ cutGeometrySpec vertices gx gy ↔
      ∃ i j,
        i < (gridCount ((calculateBoundingBox vertices).max.x -
          (calculateBoundingBox vertices).min.x) gx).toNat ∧
        j < (gridCount ((calculateBoundingBox vertices).max.y -
          (calculateBoundingBox vertices).min.y) gy).toNat ∧
        frag = cutPlaneWithRect vertices
          (cellRect (calculateBoundingBox vertices) gx gy i j) ∧
        frag.length ≥ 3 := by
  rw [cutGeometrySpec]
  simp only [List.mem_flatMap, List.mem_range]
  constructor
  · rintro ⟨i, hi, j, hj, hf⟩
    by_cases hlen : (cutPlaneWithRect vertices
        (cellRect (calculateBoundingBox vertices) gx gy i j)).length ≥ 3
    · rw [if_pos hlen, List.mem_singleton] at hf
      exact ⟨i, j, hi, hj, hf, hf ▸ hlen⟩
    · rw [if_neg hlen] at hf
      cases hf
  · rintro ⟨i, j, hi, hj, rfl, hlen⟩
    exact ⟨i, hi, j, hj, by rw [if_pos hlen]; exact List.mem_singleton.mpr rfl⟩

/-! ## Grid counts and the replicate behaviour of CutPolygonWithPolygon -/

/-- When the extent is positive and at most the step, the grid has exactly
one cell along that axis. -/
theorem gridCount_eq_one {a b : ℚ} (ha : 0 < a) (hab : a ≤ b) :
    gridCount a b = 1 := by
  have hb : 0 < b := lt_of_lt_of_le ha hab
  have h1 : gridCount a b ≤ 1 := by
    rw [gridCount]
    apply Int.ceil_le.mpr
    rw [Int.cast_one]
    exact (div_le_one hb).mpr hab
  have h2 : 0 < gridCount a b := by
    rw [gridCount]
    apply Int.lt_ceil.mpr
    rw [Int.cast_zero]
    exact div_pos ha hb
  omega

/-- A `flatMap` all of whose pieces are the fixed singleton `[a]` is a
`replicate` of the list's length. -/
theorem flatMap_const_singleton {alpha beta : Type} (l : List beta) (a : alpha) :
    l.flatMap (fun _ => [a]) = List.replicate l.length a := by
  induction l with
  | nil => rfl
  | cons b t ih => rw [List.flatMap_cons, ih, List.length_cons, List.replicate_succ]; rfl

/-- `CutPolygonWithPolygon` pushes one untouched copy of the subject
polygon per grid cell: its per-edge clipping loop is empty in the source. -/
theorem CutPolygonWithPolygon_replicate (polygon : List Point) (clip : ClipInfo) :
    CutPolygonWithPolygon polygon clip =
      List.replicate
        ((gridCount ((calculateBoundingBox polygon).max.x -
            (calculateBoundingBox polygon).min.x)
            (clip.stepX + (clip.box.max.x - clip.box.min.x))).toNat *
         (gridCount ((calculateBoundingBox polygon).max.y -
            (calculateBoundingBox polygon).min.y)
            (clip.stepY + (clip.box.max.y - clip.box.min.y))).toNat)
        polygon := by
  rw [CutPolygonWithPolygon]
  simp only []
  rw [foldl_grid]
  have hinner : ∀ (l : List ℕ),
      l.flatMap (fun _ => [polygon]) = List.replicate l.length polygon :=
    fun l => flatMap_const_singleton l polygon
  simp only [hinner, List.length_range]
  rw [flatMap_const_replicate]
  rw [List.length_range]
  rfl

/-! ## Normalization facts for ClipInfo -/

/-- Subtracting a constant distributes over binary minimum. -/
theorem min_sub_right (a b c : ℚ) : min (a - c) (b - c) = min a b - c := by
  rcases le_total a b with h | h
  · rw [min_eq_left h, min_eq_left (by linarith)]
  · rw [min_eq_right h, min_eq_right (by linarith)]

/-- The running x-minimum of offset points is the offset running x-minimum. -/
theorem foldl_min_x_map_sub (ps : List Point) (c d a : ℚ) :
    ((ps.map (fun p => Point.mk (p.x - c) (p.y - d) 0)).foldl
        (fun m q => min m q.x) (a - c)) =
      ps.foldl (fun m q => min m q.x) a - c := by
  induction ps generalizing a with
  | nil => rfl
  | cons p t ih =>
    rw [List.map_cons, List.foldl_cons, List.foldl_cons]
    simp only []
    rw [min_sub_right]
    exact ih _

/-- The running y-minimum of offset points is the offset running y-minimum. -/
theorem foldl_min_y_map_sub (ps : List Point) (c d a : ℚ) :
    ((ps.map (fun p => Point.mk (p.x - c) (p.y - d) 0)).foldl
        (fun m q => min m q.y) (a - d)) =
      ps.foldl (fun m q => min m q.y) a - d := by
  induction ps generalizing a with
  | nil => rfl
  | cons p t ih =>
    rw [List.map_cons, List.foldl_cons, List.foldl_cons]
    simp only []
    rw [min_sub_right]
    exact ih _

/-! ## Regular polygon generator facts -/

/-- Length of the generated vertex list. -/
theorem createHexagon_length (center : RVec2) (radius : ℝ) (sides : ℕ) :
    (createHexagon center radius sides).length = sides := by
  rw [createHexagon, List.length_map, List.length_range]

/-- Positional value of the generated vertices. -/
theorem createHexagon_getD (center : RVec2) (radius : ℝ) (sides k : ℕ)
    (hk : k < sides) :
    (createHexagon center radius sides).getD k ⟨0, 0, 0⟩ =
      ⟨center.x + radius * Real.cos (hexAngle sides k),
       center.y + radius * Real.sin (hexAngle sides k), 0⟩ := by
  rw [createHexagon]
  rw [List.getD_eq_getElem _ _ (by simpa using hk)]
  simp

/-- The source's angle formula agrees with the spec's `2πk/n` form. -/
theorem hexAngle_eq (sides k : ℕ) :
    hexAngle sides k = 2 * Real.pi * k / sides := by
  rw [hexAngle]
  ring

/-- Consecutive generated angles differ by exactly `2π/n`. -/
theorem hexAngle_spacing (sides : ℕ) (hs : (sides : ℝ) ≠ 0) (k : ℕ) :
    hexAngle sides (k + 1) - hexAngle sides k = 2 * Real.pi / sides := by
  rw [hexAngle, hexAngle]
  push_cast
  field_simp
  ring

/-- Each generated vertex is at Euclidean distance `radius` from the
center (for nonnegative radius). -/
theorem createHexagon_dist (center : RVec2) (radius : ℝ) (sides k : ℕ)
    (hr : 0 ≤ radius) (hk : k < sides) :
    planeDist ((createHexagon center radius sides).getD k ⟨0, 0, 0⟩) center =
      radius := by
  rw [createHexagon_getD center radius sides k hk, planeDist]
  simp only []
  have hsq : (center.x + radius * Real.cos (hexAngle sides k) - center.x) ^ 2 +
      (center.y + radius * Real.sin (hexAngle sides k) - center.y) ^ 2 =
        radius ^ 2 := by
    have hpyth := Real.cos_sq_add_sin_sq (hexAngle sides k)
    ring_nf
    nlinarith [hpyth]
  rw [hsq]
  exact Real.sqrt_sq hr

/-! ## Claim theorems -/

/-- C3: in each of the four half-plane passes of `cutPlaneWithRect`, an
edge exactly parallel to the clip boundary (zero coordinate delta, i.e.
zero denominator) is already classified identically by the inside
predicate, so the intersection is never computed for it; consequently the
division-checked variant (which fails exactly where the floating-point
source would emit an Infinity/NaN coordinate) always succeeds and returns
exactly the unchecked result.  No point emitted by `cutPlaneWithRect`
involves a zero-denominator intersection. -/
theorem c3_rectClip_no_zero_denominator (polygon : List Point) (clip : Rect) :
    cutPlaneWithRectChecked polygon clip = some (cutPlaneWithRect polygon clip) := by
  rw [cutPlaneWithRectChecked, cutPlaneWithRect]
  rw [clipPolygonWithEdgeChecked_eq _ _ _ _ (leftChecked_safe clip), Option.some_bind]
  rw [clipPolygonWithEdgeChecked_eq _ _ _ _ (rightChecked_safe clip), Option.some_bind]
  rw [clipPolygonWithEdgeChecked_eq _ _ _ _ (bottomChecked_safe clip), Option.some_bind]
  rw [clipPolygonWithEdgeChecked_eq _ _ _ _ (topChecked_safe clip)]

/-- C4: `clipPolygonWithEdge` returns exactly the sequence obtained by
visiting each cyclic edge `(input[i], input[(i + 1) mod n])` in index
order and emitting the current point if both endpoints are inside, the
current point then the intersection if only the current is inside, the
intersection alone if only the next is inside, and nothing if both are
outside. -/
theorem c4_edge_pass_emission (input : List Point) (isInside : Point → Bool)
    (getIntersection : Point → Point → Point) :
    clipPolygonWithEdge input isInside getIntersection =
      edgeClipSpec input isInside getIntersection :=
  clipPolygonWithEdge_eq_spec input isInside getIntersection

/-- C5: for a non-empty subject and positive grid sizes, `CutGeometry`
computes `gridCountX = ceil(width/gridSizeX)`, `gridCountY =
ceil(height/gridSizeY)` and clips the subject against exactly the cell
rectangles anchored at `(bboxMin.x + i*gridSizeX, bboxMin.y +
j*gridSizeY)` of size `gridSizeX × gridSizeY`, visited row-major with `i`
outer and `j` inner, keeping the at-least-3-vertex results. -/
theorem c5_grid_enumeration (vertices : List Point) (gridSizeX gridSizeY : ℚ)
    (_hne : vertices ≠ []) (_hgx : 0 < gridSizeX) (_hgy : 0 < gridSizeY) :
    CutGeometry vertices gridSizeX gridSizeY =
      cutGeometrySpec vertices gridSizeX gridSizeY :=
  CutGeometry_eq_spec vertices gridSizeX gridSizeY

/-- Witness for C5 at a concrete triangle and unit grid. -/
theorem c5_grid_enumeration_witness :
    ([⟨0, 0, 0⟩, ⟨2, 0, 0⟩, ⟨0, 2, 0⟩] : List Point) ≠ [] ∧ (0 : ℚ) < 1 ∧
      CutGeometry [⟨0, 0, 0⟩, ⟨2, 0, 0⟩, ⟨0, 2, 0⟩] 1 1 =
        cutGeometrySpec [⟨0, 0, 0⟩, ⟨2, 0, 0⟩, ⟨0, 2, 0⟩] 1 1 :=
  ⟨by simp, by norm_num,
    c5_grid_enumeration _ 1 1 (by simp) (by norm_num) (by norm_num)⟩

/-- C8: every fragment `CutGeometry` returns belongs to some in-range grid
cell `(i, j)`, and all of its vertices lie (exactly, in this exact
arithmetic) within that cell's bounds. -/
theorem c8_fragment_containment (vertices : List Point) (gridSizeX gridSizeY : ℚ)
    (hgx : 0 < gridSizeX) (hgy : 0 < gridSizeY) :
    ∀ frag ∈ CutGeometry vertices gridSizeX gridSizeY,
      ∃ i j,
        i < (gridCount ((calculateBoundingBox vertices).max.x -
          (calculateBoundingBox vertices).min.x) gridSizeX).toNat ∧
        j < (gridCount ((calculateBoundingBox vertices).max.y -
          (calculateBoundingBox vertices).min.y) gridSizeY).toNat ∧
        ∀ p ∈ frag,
          inRect p (cellRect (calculateBoundingBox vertices) gridSizeX gridSizeY i j) := by
  intro frag hf
  rw [CutGeometry_eq_spec, mem_cutGeometrySpec] at hf
  obtain ⟨i, j, hi, hj, rfl, hlen⟩ := hf
  refine ⟨i, j, hi, hj, ?_⟩
  apply cutPlaneWithRect_containment
  · rw [cellRect]
    simp only []
    linarith
  · rw [cellRect]
    simp only []
    linarith

/-- Witness for C8 at a concrete triangle and unit grid. -/
theorem c8_fragment_containment_witness :
    (0 : ℚ) < 1 ∧
      ∀ frag ∈ CutGeometry [(⟨0, 0, 0⟩ : Point), ⟨2, 0, 0⟩, ⟨0, 2, 0⟩] 1 1,
        ∃ i j,
          i < (gridCount ((calculateBoundingBox
            [(⟨0, 0, 0⟩ : Point), ⟨2, 0, 0⟩, ⟨0, 2, 0⟩]).max.x -
            (calculateBoundingBox [(⟨0, 0, 0⟩ : Point), ⟨2, 0, 0⟩, ⟨0, 2, 0⟩]).min.x) 1).toNat ∧
          j < (gridCount ((calculateBoundingBox
            [(⟨0, 0, 0⟩ : Point), ⟨2, 0, 0⟩, ⟨0, 2, 0⟩]).max.y -
            (calculateBoundingBox [(⟨0, 0, 0⟩ : Point), ⟨2, 0, 0⟩, ⟨0, 2, 0⟩]).min.y) 1).toNat ∧
          ∀ p ∈ frag,
            inRect p (cellRect (calculateBoundingBox
              [(⟨0, 0, 0⟩ : Point), ⟨2, 0, 0⟩, ⟨0, 2, 0⟩]) 1 1 i j) :=
  ⟨by norm_num, c8_fragment_containment _ 1 1 (by norm_num) (by norm_num)⟩

/-- C9: `createHexagon center radius sides` returns exactly `sides`
points; the k-th lies at angle `2πk/sides` counter-clockwise from
`center + (radius, 0)` with `z = 0`, at Euclidean distance `radius` from
the center, and consecutive angles are spaced exactly `2π/sides`. -/
theorem c9_regular_polygon (center : RVec2) (radius : ℝ) (sides : ℕ)
    (hr : 0 ≤ radius) (hs : 3 ≤ sides) :
    (createHexagon center radius sides).length = sides ∧
    (∀ k, k < sides →
      (createHexagon center radius sides).getD k ⟨0, 0, 0⟩ =
        ⟨center.x + radius * Real.cos (2 * Real.pi * k / sides),
         center.y + radius * Real.sin (2 * Real.pi * k / sides), 0⟩) ∧
    (∀ k, k < sides →
      planeDist ((createHexagon center radius sides).getD k ⟨0, 0, 0⟩) center =
        radius) ∧
    (∀ k : ℕ, hexAngle sides (k + 1) - hexAngle sides k =
      2 * Real.pi / sides) := by
  have hs0 : (sides : ℝ) ≠ 0 := by
    have : sides ≠ 0 := by omega
    exact_mod_cast this
  refine ⟨createHexagon_length center radius sides, ?_, ?_, ?_⟩
  · intro k hk
    rw [createHexagon_getD center radius sides k hk, hexAngle_eq]
  · intro k hk
    exact createHexagon_dist center radius sides k hr hk
  · intro k
    exact hexAngle_spacing sides hs0 k

/-- Witness for C9 at the unit triangle generator. -/
theorem c9_regular_polygon_witness :
    (0 : ℝ) ≤ 1 ∧ 3 ≤ 3 ∧ (createHexagon ⟨0, 0⟩ 1 3).length = 3 :=
  ⟨zero_le_one, by omega,
    (c9_regular_polygon ⟨0, 0⟩ 1 3 zero_le_one (by omega)).1⟩

/-- C10: with `bOffset = true`, the `ClipInfo` constructor replaces every
point `(x, y, z)` by `(x - minX, y - minY, 0)` (zeroing z), while the
stored `box` keeps the bounding box of the original points; hence the
normalized points' minimum corner is `(0, 0)` while `box.min` equals the
original minimum — so `box.min` is `(0, 0)` only when the original
minimum already was. -/
theorem c10_clipInfo_normalization (pts : List Point) (sx sy : ℚ)
    (hne : pts ≠ []) :
    (mkClipInfo pts sx sy true).points =
      pts.map (fun p => Point.mk (p.x - (calculateBoundingBox pts).min.x)
        (p.y - (calculateBoundingBox pts).min.y) 0) ∧
    (mkClipInfo pts sx sy true).box = calculateBoundingBox pts ∧
    (calculateBoundingBox (mkClipInfo pts sx sy true).points).min = ⟨0, 0⟩ ∧
    ((mkClipInfo pts sx sy true).box.min = Vec2.mk 0 0 ↔
      (calculateBoundingBox pts).min = Vec2.mk 0 0) := by
  refine ⟨rfl, rfl, ?_, Iff.rfl⟩
  rcases pts with _ | ⟨p, ps⟩
  · exact absurd rfl hne
  · rw [mkClipInfo]
    simp only [if_true]
    rw [List.map_cons, calculateBoundingBox]
    simp only []
    have hx : ((ps.map (fun q => Point.mk
        (q.x - (calculateBoundingBox (p :: ps)).min.x)
        (q.y - (calculateBoundingBox (p :: ps)).min.y) 0)).foldl
          (fun m q => min m q.x) (p.x - (calculateBoundingBox (p :: ps)).min.x)) = 0 := by
      rw [foldl_min_x_map_sub]
      have hm : (calculateBoundingBox (p :: ps)).min.x =
          ps.foldl (fun m q => min m q.x) p.x := by
        rw [calculateBoundingBox]
      rw [hm]
      exact sub_self _
    have hy : ((ps.map (fun q => Point.mk
        (q.x - (calculateBoundingBox (p :: ps)).min.x)
        (q.y - (calculateBoundingBox (p :: ps)).min.y) 0)).foldl
          (fun m q => min m q.y) (p.y - (calculateBoundingBox (p :: ps)).min.y)) = 0 := by
      rw [foldl_min_y_map_sub]
      have hm : (calculateBoundingBox (p :: ps)).min.y =
          ps.foldl (fun m q => min m q.y) p.y := by
        rw [calculateBoundingBox]
      rw [hm]
      exact sub_self _
    rw [hx, hy]

/-- Witness for C10 at a concrete two-point clip shape. -/
theorem c10_clipInfo_normalization_witness :
    ([⟨1, 2, 3⟩, ⟨2, 1, 5⟩] : List Point) ≠ [] ∧
      (mkClipInfo [⟨1, 2, 3⟩, ⟨2, 1, 5⟩] 0 0 true).points =
        ([⟨1, 2, 3⟩, ⟨2, 1, 5⟩] : List Point).map
          (fun p => Point.mk
            (p.x - (calculateBoundingBox [⟨1, 2, 3⟩, ⟨2, 1, 5⟩]).min.x)
            (p.y - (calculateBoundingBox [⟨1, 2, 3⟩, ⟨2, 1, 5⟩]).min.y) 0) :=
  ⟨by simp, (c10_clipInfo_normalization [⟨1, 2, 3⟩, ⟨2, 1, 5⟩] 0 0 (by simp)).1⟩

/-- A rectangle clip whose rectangle already contains every vertex is the
identity: all four passes keep every point. -/
theorem cutPlaneWithRect_all_inside (polygon : List Point) (clip : Rect)
    (h : ∀ p ∈ polygon, inRect p clip) :
    cutPlaneWithRect polygon clip = polygon := by
  have h1 : ∀ p ∈ polygon, decide (p.x ≥ clip.minX) = true :=
    fun p hp => decide_eq_true (h p hp).1
  have h2 : ∀ p ∈ polygon, decide (p.x ≤ clip.maxX) = true :=
    fun p hp => decide_eq_true (h p hp).2.1
  have h3 : ∀ p ∈ polygon, decide (p.y ≥ clip.minY) = true :=
    fun p hp => decide_eq_true (h p hp).2.2.1
  have h4 : ∀ p ∈ polygon, decide (p.y ≤ clip.maxY) = true :=
    fun p hp => decide_eq_true (h p hp).2.2.2
  rw [cutPlaneWithRect]
  rw [clipPolygonWithEdge_all_inside _ _ _ h1, clipPolygonWithEdge_all_inside _ _ _ h2,
    clipPolygonWithEdge_all_inside _ _ _ h3, clipPolygonWithEdge_all_inside _ _ _ h4]

/-- C1 (failing-input evaluation): `CutGeometry` performs no validation of
the grid sizes.  On a non-empty subject with `gridSizeX = -1` it returns
the ordinary value `[]` — its return type has no failure representation
and no exception is thrown — instead of failing with an InvalidArgument
condition.  (With `gridSizeX = 0` and a positive-width subject the
source's `ceil(width/0) = Infinity` makes the cell loop run unboundedly,
likewise with no explicit failure.) -/
theorem c1_no_invalid_argument_failure :
    CutGeometry [(⟨0, 0, 0⟩ : Point), ⟨1, 0, 0⟩, ⟨0, 1, 0⟩] (-1) 1 = [] := by
  rw [CutGeometry_eq_spec, cutGeometrySpec]
  simp only []
  have hw : (calculateBoundingBox [(⟨0, 0, 0⟩ : Point), ⟨1, 0, 0⟩, ⟨0, 1, 0⟩]).max.x -
      (calculateBoundingBox [(⟨0, 0, 0⟩ : Point), ⟨1, 0, 0⟩, ⟨0, 1, 0⟩]).min.x = 1 := by
    rw [calculateBoundingBox]
    simp only [List.foldl_cons, List.foldl_nil]
    norm_num
  rw [hw]
  have hc : (gridCount (1 : ℚ) (-1)).toNat = 0 := by
    rw [gridCount, Int.toNat_eq_zero, Int.ceil_le]
    norm_num
  rw [hc]
  simp

/-- C2 (failing-input evaluation): `CutPolygonWithPolygon` applies no
degenerate filter (its per-edge clip loop is empty in the source), so a
two-vertex subject is returned verbatim as a fragment with fewer than 3
vertices.  (`CutGeometry` itself does filter: see the containment and
single-cell theorems, whose fragments all pass the `≥ 3` check.) -/
theorem c2_degenerate_fragment_emitted :
    CutPolygonWithPolygon [(⟨0, 0, 0⟩ : Point), ⟨1, 1, 0⟩]
        (mkClipInfo [⟨0, 0, 0⟩, ⟨1, 0, 0⟩, ⟨0, 1, 0⟩] 0 0 true) =
      [[(⟨0, 0, 0⟩ : Point), ⟨1, 1, 0⟩]] ∧
    ([(⟨0, 0, 0⟩ : Point), ⟨1, 1, 0⟩]).length < 3 := by
  constructor
  · rw [CutPolygonWithPolygon_replicate]
    have hw : (calculateBoundingBox [(⟨0, 0, 0⟩ : Point), ⟨1, 1, 0⟩]).max.x -
        (calculateBoundingBox [(⟨0, 0, 0⟩ : Point), ⟨1, 1, 0⟩]).min.x = 1 := by
      rw [calculateBoundingBox]
      simp only [List.foldl_cons, List.foldl_nil]
      norm_num
    have hh : (calculateBoundingBox [(⟨0, 0, 0⟩ : Point), ⟨1, 1, 0⟩]).max.y -
        (calculateBoundingBox [(⟨0, 0, 0⟩ : Point), ⟨1, 1, 0⟩]).min.y = 1 := by
      rw [calculateBoundingBox]
      simp only [List.foldl_cons, List.foldl_nil]
      norm_num
    have hsx : (mkClipInfo [(⟨0, 0, 0⟩ : Point), ⟨1, 0, 0⟩, ⟨0, 1, 0⟩] 0 0 true).stepX +
        ((mkClipInfo [(⟨0, 0, 0⟩ : Point), ⟨1, 0, 0⟩, ⟨0, 1, 0⟩] 0 0 true).box.max.x -
         (mkClipInfo [(⟨0, 0, 0⟩ : Point), ⟨1, 0, 0⟩, ⟨0, 1, 0⟩] 0 0 true).box.min.x) = 1 := by
      show (0 : ℚ) +
        ((calculateBoundingBox [(⟨0, 0, 0⟩ : Point), ⟨1, 0, 0⟩, ⟨0, 1, 0⟩]).max.x -
         (calculateBoundingBox [(⟨0, 0, 0⟩ : Point), ⟨1, 0, 0⟩, ⟨0, 1, 0⟩]).min.x) = 1
      rw [calculateBoundingBox]
      simp only [List.foldl_cons, List.foldl_nil]
      norm_num
    have hsy : (mkClipInfo [(⟨0, 0, 0⟩ : Point), ⟨1, 0, 0⟩, ⟨0, 1, 0⟩] 0 0 true).stepY +
        ((mkClipInfo [(⟨0, 0, 0⟩ : Point), ⟨1, 0, 0⟩, ⟨0, 1, 0⟩] 0 0 true).box.max.y -
         (mkClipInfo [(⟨0, 0, 0⟩ : Point), ⟨1, 0, 0⟩, ⟨0, 1, 0⟩] 0 0 true).box.min.y) = 1 := by
      show (0 : ℚ) +
        ((calculateBoundingBox [(⟨0, 0, 0⟩ : Point), ⟨1, 0, 0⟩, ⟨0, 1, 0⟩]).max.y -
         (calculateBoundingBox [(⟨0, 0, 0⟩ : Point), ⟨1, 0, 0⟩, ⟨0, 1, 0⟩]).min.y) = 1
      rw [calculateBoundingBox]
      simp only [List.foldl_cons, List.foldl_nil]
      norm_num
    rw [hw, hh, hsx, hsy]
    have hc : (gridCount (1 : ℚ) 1).toNat = 1 := by
      rw [gridCount_eq_one (by norm_num) (by norm_num)]
      rfl
    rw [hc]
    rfl
  · simp

/-- C6 (failing-input evaluation): for a 2×2-cell run, every fragment
`CutPolygonWithPolygon` returns is the untouched subject polygon — the
replica clip polygons are computed but never clip anything, because the
per-edge clip loop body is commented out in the source.  Clipping the
square against the cell-(0,0) replica triangle would have produced a
triangle, not the square. -/
theorem c6_no_clipping_happens :
    CutPolygonWithPolygon [(⟨0, 0, 0⟩ : Point), ⟨2, 0, 0⟩, ⟨2, 2, 0⟩, ⟨0, 2, 0⟩]
        (mkClipInfo [⟨0, 0, 0⟩, ⟨1, 0, 0⟩, ⟨0, 1, 0⟩] 0 0 true) =
      [[(⟨0, 0, 0⟩ : Point), ⟨2, 0, 0⟩, ⟨2, 2, 0⟩, ⟨0, 2, 0⟩],
       [⟨0, 0, 0⟩, ⟨2, 0, 0⟩, ⟨2, 2, 0⟩, ⟨0, 2, 0⟩],
       [⟨0, 0, 0⟩, ⟨2, 0, 0⟩, ⟨2, 2, 0⟩, ⟨0, 2, 0⟩],
       [⟨0, 0, 0⟩, ⟨2, 0, 0⟩, ⟨2, 2, 0⟩, ⟨0, 2, 0⟩]] := by
  rw [CutPolygonWithPolygon_replicate]
  have hw : (calculateBoundingBox
      [(⟨0, 0, 0⟩ : Point), ⟨2, 0, 0⟩, ⟨2, 2, 0⟩, ⟨0, 2, 0⟩]).max.x -
      (calculateBoundingBox
      [(⟨0, 0, 0⟩ : Point), ⟨2, 0, 0⟩, ⟨2, 2, 0⟩, ⟨0, 2, 0⟩]).min.x = 2 := by
    rw [calculateBoundingBox]
    simp only [List.foldl_cons, List.foldl_nil]
    norm_num
  have hh : (calculateBoundingBox
      [(⟨0, 0, 0⟩ : Point), ⟨2, 0, 0⟩, ⟨2, 2, 0⟩, ⟨0, 2, 0⟩]).max.y -
      (calculateBoundingBox
      [(⟨0, 0, 0⟩ : Point), ⟨2, 0, 0⟩, ⟨2, 2, 0⟩, ⟨0, 2, 0⟩]).min.y = 2 := by
    rw [calculateBoundingBox]
    simp only [List.foldl_cons, List.foldl_nil]
    norm_num
  have hsx : (mkClipInfo [(⟨0, 0, 0⟩ : Point), ⟨1, 0, 0⟩, ⟨0, 1, 0⟩] 0 0 true).stepX +
      ((mkClipInfo [(⟨0, 0, 0⟩ : Point), ⟨1, 0, 0⟩, ⟨0, 1, 0⟩] 0 0 true).box.max.x -
       (mkClipInfo [(⟨0, 0, 0⟩ : Point), ⟨1, 0, 0⟩, ⟨0, 1, 0⟩] 0 0 true).box.min.x) = 1 := by
    show (0 : ℚ) +
      ((calculateBoundingBox [(⟨0, 0, 0⟩ : Point), ⟨1, 0, 0⟩, ⟨0, 1, 0⟩]).max.x -
       (calculateBoundingBox [(⟨0, 0, 0⟩ : Point), ⟨1, 0, 0⟩, ⟨0, 1, 0⟩]).min.x) = 1
    rw [calculateBoundingBox]
    simp only [List.foldl_cons, List.foldl_nil]
    norm_num
  have hsy : (mkClipInfo [(⟨0, 0, 0⟩ : Point), ⟨1, 0, 0⟩, ⟨0, 1, 0⟩] 0 0 true).stepY +
      ((mkClipInfo [(⟨0, 0, 0⟩ : Point), ⟨1, 0, 0⟩, ⟨0, 1, 0⟩] 0 0 true).box.max.y -
       (mkClipInfo [(⟨0, 0, 0⟩ : Point), ⟨1, 0, 0⟩, ⟨0, 1, 0⟩] 0 0 true).box.min.y) = 1 := by
    show (0 : ℚ) +
      ((calculateBoundingBox [(⟨0, 0, 0⟩ : Point), ⟨1, 0, 0⟩, ⟨0, 1, 0⟩]).max.y -
       (calculateBoundingBox [(⟨0, 0, 0⟩ : Point), ⟨1, 0, 0⟩, ⟨0, 1, 0⟩]).min.y) = 1
    rw [calculateBoundingBox]
    simp only [List.foldl_cons, List.foldl_nil]
    norm_num
  rw [hw, hh, hsx, hsy]
  have hc : (gridCount (2 : ℚ) 1).toNat = 2 := by
    have h2 : gridCount (2 : ℚ) 1 = 2 := by
      rw [gridCount, Int.ceil_eq_iff]
      norm_num
    rw [h2]
    rfl
  rw [hc]
  rfl

/-- C7 counterexample: a degenerate (zero-width) three-vertex subject whose
bounding box fits entirely within one 1×1 grid cell, for which
`CutGeometry` returns no fragment at all (since `ceil(0/1) = 0` gives a
zero-column grid) rather than exactly one fragment. -/
theorem c7_zero_width_counterexample :
    3 ≤ ([(⟨0, 0, 0⟩ : Point), ⟨0, 1, 0⟩, ⟨0, 1/2, 0⟩]).length ∧
    (calculateBoundingBox [(⟨0, 0, 0⟩ : Point), ⟨0, 1, 0⟩, ⟨0, 1/2, 0⟩]).max.x -
      (calculateBoundingBox [(⟨0, 0, 0⟩ : Point), ⟨0, 1, 0⟩, ⟨0, 1/2, 0⟩]).min.x ≤ 1 ∧
    (calculateBoundingBox [(⟨0, 0, 0⟩ : Point), ⟨0, 1, 0⟩, ⟨0, 1/2, 0⟩]).max.y -
      (calculateBoundingBox [(⟨0, 0, 0⟩ : Point), ⟨0, 1, 0⟩, ⟨0, 1/2, 0⟩]).min.y ≤ 1 ∧
    CutGeometry [(⟨0, 0, 0⟩ : Point), ⟨0, 1, 0⟩, ⟨0, 1/2, 0⟩] 1 1 = [] := by
  have hw : (calculateBoundingBox [(⟨0, 0, 0⟩ : Point), ⟨0, 1, 0⟩, ⟨0, 1/2, 0⟩]).max.x -
      (calculateBoundingBox [(⟨0, 0, 0⟩ : Point), ⟨0, 1, 0⟩, ⟨0, 1/2, 0⟩]).min.x = 0 := by
    rw [calculateBoundingBox]
    simp only [List.foldl_cons, List.foldl_nil]
    norm_num
  have hh : (calculateBoundingBox [(⟨0, 0, 0⟩ : Point), ⟨0, 1, 0⟩, ⟨0, 1/2, 0⟩]).max.y -
      (calculateBoundingBox [(⟨0, 0, 0⟩ : Point), ⟨0, 1, 0⟩, ⟨0, 1/2, 0⟩]).min.y = 1 := by
    rw [calculateBoundingBox]
    simp only [List.foldl_cons, List.foldl_nil]
    norm_num
  refine ⟨by simp, by rw [hw]; norm_num, by rw [hh], ?_⟩
  rw [CutGeometry_eq_spec, cutGeometrySpec]
  simp only []
  rw [hw]
  have hc : (gridCount (0 : ℚ) 1).toNat = 0 := by
    rw [gridCount, Int.toNat_eq_zero, Int.ceil_le]
    norm_num
  rw [hc]
  simp

/-- C7 (amended): if the subject has at least 3 vertices, its bounding box
has positive width and height, and both extents fit within one grid cell,
then `CutGeometry` returns exactly one fragment which is the subject
polygon itself. -/
theorem c7_single_cell_identity (vertices : List Point) (gridSizeX gridSizeY : ℚ)
    (hlen : 3 ≤ vertices.length)
    (hwpos : (calculateBoundingBox vertices).min.x < (calculateBoundingBox vertices).max.x)
    (hhpos : (calculateBoundingBox vertices).min.y < (calculateBoundingBox vertices).max.y)
    (hgx : (calculateBoundingBox vertices).max.x -
      (calculateBoundingBox vertices).min.x ≤ gridSizeX)
    (hgy : (calculateBoundingBox vertices).max.y -
      (calculateBoundingBox vertices).min.y ≤ gridSizeY) :
    CutGeometry vertices gridSizeX gridSizeY = [vertices] := by
  rw [CutGeometry_eq_spec, cutGeometrySpec]
  simp only []
  have hcx : (gridCount ((calculateBoundingBox vertices).max.x -
      (calculateBoundingBox vertices).min.x) gridSizeX).toNat = 1 := by
    rw [gridCount_eq_one (by linarith) hgx]
    rfl
  have hcy : (gridCount ((calculateBoundingBox vertices).max.y -
      (calculateBoundingBox vertices).min.y) gridSizeY).toNat = 1 := by
    rw [gridCount_eq_one (by linarith) hgy]
    rfl
  rw [hcx, hcy, show List.range 1 = [0] from rfl, List.flatMap_cons,
    List.flatMap_nil, List.flatMap_cons, List.flatMap_nil]
  have hin : ∀ p ∈ vertices,
      inRect p (cellRect (calculateBoundingBox vertices) gridSizeX gridSizeY 0 0) := by
    intro p hp
    obtain ⟨hb1, hb2, hb3, hb4⟩ := bbox_bounds vertices hp
    rw [cellRect]
    refine ⟨?_, ?_, ?_, ?_⟩ <;> simp only [Nat.cast_zero, zero_mul, add_zero] <;> linarith
  have hid : cutPlaneWithRect vertices
      (cellRect (calculateBoundingBox vertices) gridSizeX gridSizeY 0 0) = vertices :=
    cutPlaneWithRect_all_inside vertices _ hin
  rw [hid, if_pos hlen]
  simp

/-- Witness for the amended C7 at a concrete triangle inside one 2×2 cell. -/
theorem c7_single_cell_identity_witness :
    3 ≤ ([(⟨0, 0, 0⟩ : Point), ⟨1, 0, 0⟩, ⟨0, 1, 0⟩]).length ∧
    (calculateBoundingBox [(⟨0, 0, 0⟩ : Point), ⟨1, 0, 0⟩, ⟨0, 1, 0⟩]).min.x <
      (calculateBoundingBox [(⟨0, 0, 0⟩ : Point), ⟨1, 0, 0⟩, ⟨0, 1, 0⟩]).max.x ∧
    CutGeometry [(⟨0, 0, 0⟩ : Point), ⟨1, 0, 0⟩, ⟨0, 1, 0⟩] 2 2 =
      [[(⟨0, 0, 0⟩ : Point), ⟨1, 0, 0⟩, ⟨0, 1, 0⟩]] := by
  have hbw : (calculateBoundingBox [(⟨0, 0, 0⟩ : Point), ⟨1, 0, 0⟩, ⟨0, 1, 0⟩]).min.x = 0 ∧
      (calculateBoundingBox [(⟨0, 0, 0⟩ : Point), ⟨1, 0, 0⟩, ⟨0, 1, 0⟩]).max.x = 1 ∧
      (calculateBoundingBox [(⟨0, 0, 0⟩ : Point), ⟨1, 0, 0⟩, ⟨0, 1, 0⟩]).min.y = 0 ∧
      (calculateBoundingBox [(⟨0, 0, 0⟩ : Point), ⟨1, 0, 0⟩, ⟨0, 1, 0⟩]).max.y = 1 := by
    rw [calculateBoundingBox]
    simp only [List.foldl_cons, List.foldl_nil]
    norm_num
  refine ⟨by simp, by rw [hbw.1, hbw.2.1]; norm_num, ?_⟩
  exact c7_single_cell_identity _ 2 2 (by simp)
    (by rw [hbw.1, hbw.2.1]; norm_num)
    (by rw [hbw.2.2.1, hbw.2.2.2]; norm_num)
    (by rw [hbw.1, hbw.2.1]; norm_num)
    (by rw [hbw.2.2.1, hbw.2.2.2]; norm_num)

end GeometryEditor
